import Mathlib

/-! # Rolling-block engine of `test3.cpp`

A shallow embedding of the game state of `test3.cpp` (the latch flags
`left_press`, `right_press`, `up_press`, `down_press`, the global
`block_position` and the animation angle `block_rotation`) together with the
two functions that write it: the key callback `keyboard` and the per-frame
scheduler `check_key_functions`.

Modelling decisions.

* The `int` fields are mathematical integers (`Int`); signed overflow is
  undefined in C++, so the model describes the executions in which no
  coordinate leaves the range of `int`.
* `block_rotation`, `translate_x`, `translate_y`, `translate_z` are `float`
  in the source.  The program only ever stores small integers in them
  (`0`, `-1`, `-2`, and the angle, which moves in steps of `2`), which `float`
  represents exactly, so they are modelled as `Int` as well.
* The globals are passed explicitly as a `State`; a `void` function that
  writes the globals becomes a function `State → State`.
* The array `arena` is filled once by `initialiseArena` and never read again;
  it is not part of the state.
-/

namespace Bloxorz

/-! ## Data model -/

/-- The record `struct block_positions` of the source. -/
structure block_positions where
  x1 : Int
  y1 : Int
  x2 : Int
  y2 : Int
  orientation : Int
  translate_x : Int
  translate_y : Int
  translate_z : Int
  x_axis : Int
  y_axis : Int
  z_axis : Int
deriving DecidableEq

/-- The global variables of the source that the input latch and the roll
scheduler read and write.  The field `window_open` records whether `quit` has
destroyed the window. -/
structure State where
  left_press : Int
  right_press : Int
  up_press : Int
  down_press : Int
  block_position : block_positions
  block_rotation : Int
  window_open : Bool
deriving DecidableEq

/-! ## Input latch (`keyboard`) -/

/-- Value of `GLFW_RELEASE` in the GLFW header. -/
def GLFW_RELEASE : Int := 0
/-- Value of `GLFW_PRESS` in the GLFW header. -/
def GLFW_PRESS : Int := 1
/-- Value of `GLFW_REPEAT` in the GLFW header. -/
def GLFW_REPEAT : Int := 2
/-- Value of `GLFW_KEY_RIGHT` in the GLFW header. -/
def GLFW_KEY_RIGHT : Int := 262
/-- Value of `GLFW_KEY_LEFT` in the GLFW header. -/
def GLFW_KEY_LEFT : Int := 263
/-- Value of `GLFW_KEY_DOWN` in the GLFW header. -/
def GLFW_KEY_DOWN : Int := 264
/-- Value of `GLFW_KEY_UP` in the GLFW header. -/
def GLFW_KEY_UP : Int := 265
/-- Value of `GLFW_KEY_ESCAPE` in the GLFW header. -/
def GLFW_KEY_ESCAPE : Int := 256
/-- Value of `GLFW_KEY_C` in the GLFW header. -/
def GLFW_KEY_C : Int := 67
/-- Value of `GLFW_KEY_P` in the GLFW header. -/
def GLFW_KEY_P : Int := 80
/-- Value of `GLFW_KEY_X` in the GLFW header. -/
def GLFW_KEY_X : Int := 88

/-- The function `quit`: it destroys the window and terminates GLFW; the call
of `exit` is commented out in the source, so no game variable is touched. -/
def quit (s : State) : State :=
  { s with window_open := false }

/-- The key callback `keyboard (window, key, scancode, action, mods)`.  Every
case of the `GLFW_RELEASE` switch is empty (the assignments that would clear
a flag are commented out); the `GLFW_PRESS` switch latches the direction. -/
def keyboard (s : State) (key _scancode action _mods : Int) : State :=
  if action = GLFW_RELEASE then
    if key = GLFW_KEY_UP then s
    else if key = GLFW_KEY_LEFT then s
    else if key = GLFW_KEY_DOWN then s
    else if key = GLFW_KEY_RIGHT then s
    else if key = GLFW_KEY_C then s
    else if key = GLFW_KEY_P then s
    else if key = GLFW_KEY_X then s
    else s
  else if action = GLFW_PRESS then
    if key = GLFW_KEY_UP then { s with up_press := 1 }
    else if key = GLFW_KEY_LEFT then { s with left_press := 1 }
    else if key = GLFW_KEY_DOWN then { s with down_press := 1 }
    else if key = GLFW_KEY_RIGHT then { s with right_press := 1 }
    else if key = GLFW_KEY_ESCAPE then quit s
    else s
  else s

/-! ## Roll scheduler (`check_key_functions`) -/

/-- The function `check_key_functions`, branch for branch.  In the `left_press`
and `up_press` branches the angle is advanced first and the commit test
`block_rotation >= 90` is made on the advanced angle; in the `right_press` and
`down_press` branches the commit is the `else` of `block_rotation < 90`. -/
def check_key_functions (s : State) : State :=
  if s.left_press = 1 then
    let bp : block_positions :=
      { s.block_position with
        translate_x := 0, translate_y := 0, translate_z := 0,
        x_axis := 0, y_axis := 0, z_axis := 1 }
    let r : Int := if s.block_rotation < 90 then s.block_rotation + 2 else s.block_rotation
    if bp.orientation = 1 then
      if r ≥ 90 then
        { s with
          block_rotation := 0,
          block_position := { bp with orientation := 0, x1 := bp.x1 - 2 },
          left_press := 0 }
      else { s with block_position := bp, block_rotation := r }
    else if bp.orientation = 0 then
      if r ≥ 90 then
        { s with
          block_rotation := 0,
          block_position := { bp with orientation := 1, x1 := bp.x1 - 1 },
          left_press := 0 }
      else { s with block_position := bp, block_rotation := r }
    else
      if r ≥ 90 then
        { s with
          block_rotation := 0,
          block_position := { bp with x1 := bp.x1 - 1 },
          left_press := 0 }
      else { s with block_position := bp, block_rotation := r }
  else if s.right_press = 1 then
    if s.block_position.orientation = 1 then
      let bp : block_positions :=
        { s.block_position with
          translate_x := -1, translate_y := 0, translate_z := 0,
          x_axis := 0, y_axis := 0, z_axis := -1 }
      if s.block_rotation < 90 then
        { s with block_position := bp, block_rotation := s.block_rotation + 2 }
      else
        { s with
          block_rotation := 0,
          block_position := { bp with orientation := 0, x1 := bp.x1 + 1 },
          right_press := 0 }
    else if s.block_position.orientation = 0 then
      let bp : block_positions :=
        { s.block_position with
          translate_x := -2, translate_y := 0, translate_z := 0,
          x_axis := 0, y_axis := 0, z_axis := -1 }
      if s.block_rotation < 90 then
        { s with block_position := bp, block_rotation := s.block_rotation + 2 }
      else
        { s with
          block_rotation := 0,
          block_position := { bp with orientation := 1, x1 := bp.x1 + 2 },
          right_press := 0 }
    else
      let bp : block_positions :=
        { s.block_position with
          translate_x := -1, translate_y := 0, translate_z := 0,
          x_axis := 0, y_axis := 0, z_axis := -1 }
      if s.block_rotation < 90 then
        { s with block_position := bp, block_rotation := s.block_rotation + 2 }
      else
        { s with
          block_rotation := 0,
          block_position := { bp with x1 := bp.x1 + 1 },
          right_press := 0 }
  else if s.down_press = 1 then
    if s.block_position.orientation = 1 then
      let bp : block_positions :=
        { s.block_position with
          translate_x := 0, translate_y := 0, translate_z := -1,
          x_axis := 1, y_axis := 0, z_axis := 0 }
      if s.block_rotation < 90 then
        { s with block_position := bp, block_rotation := s.block_rotation + 2 }
      else
        { s with
          block_rotation := 0,
          block_position := { bp with orientation := 2, y1 := bp.y1 - 1 },
          down_press := 0 }
    else if s.block_position.orientation = 0 then
      let bp : block_positions :=
        { s.block_position with
          translate_x := 0, translate_y := 0, translate_z := -1,
          x_axis := 1, y_axis := 0, z_axis := 0 }
      if s.block_rotation < 90 then
        { s with block_position := bp, block_rotation := s.block_rotation + 2 }
      else
        { s with
          block_rotation := 0,
          block_position := { bp with orientation := 0, y1 := bp.y1 - 1 },
          down_press := 0 }
    else
      let bp : block_positions :=
        { s.block_position with
          translate_x := 0, translate_y := 0, translate_z := -2,
          x_axis := 1, y_axis := 0, z_axis := 0 }
      if s.block_rotation < 90 then
        { s with block_position := bp, block_rotation := s.block_rotation + 2 }
      else
        { s with
          block_rotation := 0,
          block_position := { bp with orientation := 1, y1 := bp.y1 - 2 },
          down_press := 0 }
  else if s.up_press = 1 then
    let bp : block_positions :=
      { s.block_position with
        translate_x := 0, translate_y := 0, translate_z := 0,
        x_axis := -1, y_axis := 0, z_axis := 0 }
    let r : Int := if s.block_rotation < 90 then s.block_rotation + 2 else s.block_rotation
    if bp.orientation = 1 then
      if r ≥ 90 then
        { s with
          block_rotation := 0,
          block_position := { bp with orientation := 2, y1 := bp.y1 + 2 },
          up_press := 0 }
      else { s with block_position := bp, block_rotation := r }
    else if bp.orientation = 0 then
      if r ≥ 90 then
        { s with
          block_rotation := 0,
          block_position := { bp with orientation := 0, y1 := bp.y1 + 1 },
          up_press := 0 }
      else { s with block_position := bp, block_rotation := r }
    else
      if r ≥ 90 then
        { s with
          block_rotation := 0,
          block_position := { bp with orientation := 1, y1 := bp.y1 + 1 },
          up_press := 0 }
      else { s with block_position := bp, block_rotation := r }
  else s

/-- The state at program start: the globals are zero-initialised, then
`initialiseArena` sets `x1 = 5`, `y1 = 5`, `orientation = 1`. -/
def initialiseArena : State :=
  { left_press := 0, right_press := 0, up_press := 0, down_press := 0,
    block_position :=
      { x1 := 5, y1 := 5, x2 := 0, y2 := 0, orientation := 1,
        translate_x := 0, translate_y := 0, translate_z := 0,
        x_axis := 0, y_axis := 0, z_axis := 0 },
    block_rotation := 0,
    window_open := true }

/-! ## Directions, and the table the scheduler's branches implement -/

/-- The four roll directions, listed in the order in which
`check_key_functions` tests their flags. -/
inductive Direction where
  | Left
  | Right
  | Down
  | Up
deriving DecidableEq

/-- The latch flag of a direction. -/
def intent : Direction → State → Int
  | .Left, s => s.left_press
  | .Right, s => s.right_press
  | .Down, s => s.down_press
  | .Up, s => s.up_press

/-- The state with the latch flag of a direction set to `v`. -/
def setIntent : Direction → Int → State → State
  | .Left, v, s => { s with left_press := v }
  | .Right, v, s => { s with right_press := v }
  | .Down, v, s => { s with down_press := v }
  | .Up, v, s => { s with up_press := v }

/-- The key code that `keyboard` maps to a direction. -/
def keyOf : Direction → Int
  | .Left => GLFW_KEY_LEFT
  | .Right => GLFW_KEY_RIGHT
  | .Down => GLFW_KEY_DOWN
  | .Up => GLFW_KEY_UP

/-- The direction whose branch `check_key_functions` enters: the first flag
equal to `1` in the order `left_press`, `right_press`, `down_press`,
`up_press` of the `if` / `else if` chain; `none` when no flag is `1`. -/
def serviced (s : State) : Option Direction :=
  if s.left_press = 1 then some .Left
  else if s.right_press = 1 then some .Right
  else if s.down_press = 1 then some .Down
  else if s.up_press = 1 then some .Up
  else none

/-- The rank of a direction in the priority order (smaller is served first). -/
def rank : Direction → Nat
  | .Left => 0
  | .Right => 1
  | .Down => 2
  | .Up => 3

/-- The rotation axis `(x_axis, y_axis, z_axis)` each branch stores. -/
def axisOf : Direction → Int × Int × Int
  | .Left => (0, 0, 1)
  | .Right => (0, 0, -1)
  | .Down => (1, 0, 0)
  | .Up => (-1, 0, 0)

/-- The pivot offset `(translate_x, translate_y, translate_z)` each branch
stores, by direction and by the `orientation` tested in the branch
(`1`, then `0`, then the final `else`). -/
def pivotOf : Direction → Int → Int × Int × Int
  | .Left, _ => (0, 0, 0)
  | .Right, o => if o = 1 then (-1, 0, 0) else if o = 0 then (-2, 0, 0) else (-1, 0, 0)
  | .Down, o => if o = 1 then (0, 0, -1) else if o = 0 then (0, 0, -1) else (0, 0, -2)
  | .Up, _ => (0, 0, 0)

/-- The `orientation` each committing branch stores. -/
def targetOrientation : Direction → Int → Int
  | .Left, o => if o = 1 then 0 else if o = 0 then 1 else o
  | .Right, o => if o = 1 then 0 else if o = 0 then 1 else o
  | .Down, o => if o = 1 then 2 else if o = 0 then 0 else 1
  | .Up, o => if o = 1 then 2 else if o = 0 then 0 else 1

/-- The change `(dx1, dy1)` each committing branch applies to `(x1, y1)`. -/
def cellDelta : Direction → Int → Int × Int
  | .Left, o => if o = 1 then (-2, 0) else if o = 0 then (-1, 0) else (-1, 0)
  | .Right, o => if o = 1 then (1, 0) else if o = 0 then (2, 0) else (1, 0)
  | .Down, o => if o = 1 then (0, -1) else if o = 0 then (0, -1) else (0, -2)
  | .Up, o => if o = 1 then (0, 2) else if o = 0 then (0, 1) else (0, 1)

/-- The least angle, read at the start of a call, from which the call
commits: the `left_press` and `up_press` branches test `>= 90` after adding
`2`, the `right_press` and `down_press` branches commit in the `else` of
`block_rotation < 90`. -/
def commitAngle : Direction → Int
  | .Left => 88
  | .Right => 90
  | .Down => 90
  | .Up => 88

/-- The record after a branch has stored its pivot offset and axis. -/
def storeGeometry (d : Direction) (bp : block_positions) : block_positions :=
  { bp with
    translate_x := (pivotOf d bp.orientation).1,
    translate_y := (pivotOf d bp.orientation).2.1,
    translate_z := (pivotOf d bp.orientation).2.2,
    x_axis := (axisOf d).1,
    y_axis := (axisOf d).2.1,
    z_axis := (axisOf d).2.2 }

/-- The effect of a call that services direction `d` without committing. -/
def advance (d : Direction) (s : State) : State :=
  { s with
    block_position := storeGeometry d s.block_position,
    block_rotation := s.block_rotation + 2 }

/-- The effect of a call that services direction `d` and commits. -/
def commit (d : Direction) (s : State) : State :=
  setIntent d 0
    { s with
      block_position :=
        { storeGeometry d s.block_position with
          orientation := targetOrientation d s.block_position.orientation,
          x1 := s.block_position.x1 + (cellDelta d s.block_position.orientation).1,
          y1 := s.block_position.y1 + (cellDelta d s.block_position.orientation).2 },
      block_rotation := 0 }

/-- Whether the call of `check_key_functions` made in state `s` takes one of
the twelve committing branches. -/
def commits (s : State) : Bool :=
  match serviced s with
  | some d => decide (commitAngle d ≤ s.block_rotation)
  | none => false

/-- The number of calls of `check_key_functions` a roll in direction `d` needs
to commit when the angle before the first call is `r`. -/
def callsToCommit (d : Direction) (r : Int) : Nat :=
  Int.toNat ((commitAngle d - r + 1) / 2) + 1

/-- Calls `check_key_functions` for as long as the flag of direction `d` is
`1`, at most `fuel` times; `none` when the flag is still `1` after `fuel`
calls. -/
def rollUntilCleared (d : Direction) : Nat → State → Option State
  | 0, s => if intent d s = 1 then none else some s
  | fuel + 1, s =>
    if intent d s = 1 then rollUntilCleared d fuel (check_key_functions s) else some s

/-- The effect of `k` successive calls that service direction `d` without
committing. -/
def advanceBy (d : Direction) (s : State) (k : Nat) : State :=
  { s with
    block_position := storeGeometry d s.block_position,
    block_rotation := s.block_rotation + 2 * (k : Int) }

/-- The block of state `t` is at rest (`block_rotation = 0`) with orientation
`o` at cell `(x, z)`, that is `x1 = x` and `y1 = z`. -/
def restsAt (t : State) (o x z : Int) : Prop :=
  t.block_rotation = 0 ∧ t.block_position.orientation = o ∧
    t.block_position.x1 = x ∧ t.block_position.y1 = z

instance (t : State) (o x z : Int) : Decidable (restsAt t o x z) := by
  unfold restsAt
  infer_instance

/-- The initial state with the block moved to orientation `o` at cell
`(x, z)`: a rest state with no intent pending. -/
def restState (o x z : Int) : State :=
  { initialiseArena with
    block_position :=
      { initialiseArena.block_position with orientation := o, x1 := x, y1 := z } }

/-- A key-press event for the key of direction `d`. -/
def press (d : Direction) (s : State) : State :=
  keyboard s (keyOf d) 0 GLFW_PRESS 0

/-- The states the program can be in: the initial state, closed under key
events (any key, any action) and calls of `check_key_functions`. -/
inductive Reachable : State → Prop where
  | init : Reachable initialiseArena
  | key (s : State) (key scancode action mods : Int) :
      Reachable s → Reachable (keyboard s key scancode action mods)
  | tick (s : State) : Reachable s → Reachable (check_key_functions s)

/-! ## Completed rolls -/

/-- One completed roll: the key of direction `d` is pressed and
`check_key_functions` is called until the flag of `d` is cleared (at most
`fuel` calls). -/
def completeRoll (d : Direction) (fuel : Nat) (s : State) : Option State :=
  rollUntilCleared d fuel (press d s)

/-- The opposite of a direction: Left and Right, Up and Down. -/
def opposite : Direction → Direction
  | .Left => .Right
  | .Right => .Left
  | .Down => .Up
  | .Up => .Down

/-! ## Meshes and the model transform of `draw_block` -/

/-- A point of the scene, `(x, y, z)`. -/
abbrev Vec3 := ℚ × ℚ × ℚ

/-- The `vertex_buffer_data` of `createBlockVertical` (36 vertices). -/
def block_vertical : List Vec3 :=
  [
    (0, 0, 0), (1, 0, 0), (0, 2, 0), (1, 2, 0), (1, 0, 0), (0, 2, 0),
    (0, 0, 1), (1, 0, 1), (0, 2, 1), (1, 2, 1), (1, 0, 1), (0, 2, 1),
    (0, 0, 0), (0, 2, 0), (0, 0, 1), (0, 2, 1), (0, 2, 0), (0, 0, 1),
    (1, 0, 0), (1, 2, 0), (1, 0, 1), (1, 2, 1), (1, 2, 0), (1, 0, 1),
    (0, 0, 0), (1, 0, 0), (0, 0, 1), (1, 0, 1), (1, 0, 0), (0, 0, 1),
    (0, 2, 0), (1, 2, 0), (0, 2, 1), (1, 2, 1), (1, 2, 0), (0, 2, 1)
  ]

/-- The `vertex_buffer_data` of `createBlockHorizontal1` (36 vertices). -/
def block_horizontal1 : List Vec3 :=
  [
    (0, 0, 0), (2, 0, 0), (0, 1, 0), (2, 1, 0), (2, 0, 0), (0, 1, 0),
    (0, 0, 1), (2, 0, 1), (0, 1, 1), (2, 1, 1), (2, 0, 1), (0, 1, 1),
    (0, 0, 0), (0, 1, 0), (0, 0, 1), (0, 1, 1), (0, 1, 0), (0, 0, 1),
    (2, 0, 0), (2, 1, 0), (2, 0, 1), (2, 1, 1), (2, 1, 0), (2, 0, 1),
    (0, 0, 0), (2, 0, 0), (0, 0, 1), (2, 0, 1), (2, 0, 0), (0, 0, 1),
    (0, 1, 0), (2, 1, 0), (0, 1, 1), (2, 1, 1), (2, 1, 0), (0, 1, 1)
  ]

/-- The `vertex_buffer_data` of `createBlockHorizontal2` (36 vertices). -/
def block_horizontal2 : List Vec3 :=
  [
    (0, 0, 0), (1, 0, 0), (0, 1, 0), (1, 1, 0), (1, 0, 0), (0, 1, 0),
    (0, 0, 2), (1, 0, 2), (0, 1, 2), (1, 1, 2), (1, 0, 2), (0, 1, 2),
    (0, 0, 0), (0, 1, 0), (0, 0, 2), (0, 1, 2), (0, 1, 0), (0, 0, 2),
    (1, 0, 0), (1, 1, 0), (1, 0, 2), (1, 1, 2), (1, 1, 0), (1, 0, 2),
    (0, 0, 0), (1, 0, 0), (0, 0, 2), (1, 0, 2), (1, 0, 0), (0, 0, 2),
    (0, 1, 0), (1, 1, 0), (0, 1, 2), (1, 1, 2), (1, 1, 0), (0, 1, 2)
  ]

/-- The matrix `glm::translate (t)` of the GLM library, applied to a point. -/
def glm_translate (t v : Vec3) : Vec3 :=
  (v.1 + t.1, v.2.1 + t.2.1, v.2.2 + t.2.2)

/-- The matrix `glm::rotate (angle, axis)` of the GLM library, applied to a
point: the rotation about the unit vector `a`, where `c` and `s` stand for the
cosine and the sine of `angle`.  GLM normalises the axis first; the axes
`check_key_functions` stores are unit vectors already. -/
def glm_rotate (c s : ℚ) (a v : Vec3) : Vec3 :=
  ((c + (1 - c) * a.1 * a.1) * v.1
      + ((1 - c) * a.2.1 * a.1 - s * a.2.2) * v.2.1
      + ((1 - c) * a.2.2 * a.1 + s * a.2.1) * v.2.2,
    ((1 - c) * a.1 * a.2.1 + s * a.2.2) * v.1
      + (c + (1 - c) * a.2.1 * a.2.1) * v.2.1
      + ((1 - c) * a.2.2 * a.2.1 - s * a.1) * v.2.2,
    ((1 - c) * a.1 * a.2.2 - s * a.2.1) * v.1
      + ((1 - c) * a.2.1 * a.2.2 + s * a.1) * v.2.1
      + (c + (1 - c) * a.2.2 * a.2.2) * v.2.2)

/-- The model matrix `Matrices.model` that `draw_block` builds,
`translateRectangle * translateCancel * rotateRectangle * translateRotate`,
applied to a vertex; `c` and `s` stand for the cosine and the sine of
`block_rotation` degrees. -/
def draw_block_model (c s : ℚ) (st : State) (v : Vec3) : Vec3 :=
  let translateRectangle : Vec3 → Vec3 :=
    glm_translate (-7.5 + (st.block_position.x1 : ℚ), 0.2, 5 - (st.block_position.y1 : ℚ))
  let rotateRectangle : Vec3 → Vec3 :=
    glm_rotate c s ((st.block_position.x_axis : ℚ), (st.block_position.y_axis : ℚ),
      (st.block_position.z_axis : ℚ))
  let translateRotate : Vec3 → Vec3 :=
    glm_translate ((st.block_position.translate_x : ℚ), (st.block_position.translate_y : ℚ),
      (st.block_position.translate_z : ℚ))
  let translateCancel : Vec3 → Vec3 :=
    glm_translate (-1 * (st.block_position.translate_x : ℚ),
      -1 * (st.block_position.translate_y : ℚ), -1 * (st.block_position.translate_z : ℚ))
  translateRectangle (translateCancel (rotateRectangle (translateRotate v)))

/-- The mesh `draw_block` draws: `block_vertical` for orientation `1`,
`block_horizontal1` for orientation `0`, `block_horizontal2` otherwise. -/
def drawn_mesh (st : State) : List Vec3 :=
  if st.block_position.orientation = 1 then block_vertical
  else if st.block_position.orientation = 0 then block_horizontal1
  else block_horizontal2

/-- What `draw_block` draws: the vertices of the selected mesh under the model
matrix (before the fixed view and projection). -/
def draw_block (c s : ℚ) (st : State) : List Vec3 :=
  (drawn_mesh st).map (draw_block_model c s st)

/-- The eight corners of the box `[0, h.1] x [0, h.2.1] x [0, h.2.2]`. -/
def boxCorners (h : Vec3) : List Vec3 :=
  [(0, 0, 0), (h.1, 0, 0), (0, h.2.1, 0), (h.1, h.2.1, 0),
    (0, 0, h.2.2), (h.1, 0, h.2.2), (0, h.2.1, h.2.2), (h.1, h.2.1, h.2.2)]

/-- The mesh of an orientation, as `draw_block` selects it. -/
def meshOf (o : Int) : List Vec3 :=
  if o = 1 then block_vertical else if o = 0 then block_horizontal1 else block_horizontal2

/-- The quarter turn of direction `d` from orientation `o` about the stored
pivot, `translateCancel * rotateRectangle * translateRotate` with cosine `0`
and sine `1`, followed by the shift that takes the committed cell back to the
origin. -/
def settle (d : Direction) (o : Int) (v : Vec3) : Vec3 :=
  glm_translate
    (-((cellDelta d o).1 : ℚ), 0, ((cellDelta d o).2 : ℚ))
    (glm_translate
      (-1 * ((pivotOf d o).1 : ℚ), -1 * ((pivotOf d o).2.1 : ℚ), -1 * ((pivotOf d o).2.2 : ℚ))
      (glm_rotate 0 1 (((axisOf d).1 : ℚ), ((axisOf d).2.1 : ℚ), ((axisOf d).2.2 : ℚ))
        (glm_translate
          (((pivotOf d o).1 : ℚ), ((pivotOf d o).2.1 : ℚ), ((pivotOf d o).2.2 : ℚ)) v)))

/-! ## The scheduler implements the table -/

theorem check_key_functions_none (s : State) (h : serviced s = none) :
    check_key_functions s = s := by
  unfold serviced at h
  unfold check_key_functions
  split_ifs at h ⊢
  rfl

theorem check_key_functions_some (s : State) (d : Direction) (h : serviced s = some d) :
    check_key_functions s =
      if commitAngle d ≤ s.block_rotation then commit d s else advance d s := by
  obtain ⟨l, r, u, dn, ⟨x, y, x2, y2, o, tx, ty, tz, ax, ay, az⟩, rot, w⟩ := s
  unfold serviced at h
  simp only at h
  cases d <;>
  · unfold check_key_functions
    split_ifs at h <;>
    by_cases ho1 : o = 1 <;> by_cases ho0 : o = 0 <;>
    simp_all [commit, advance, storeGeometry, setIntent, pivotOf, axisOf,
      targetOrientation, cellDelta, commitAngle] <;>
    split_ifs <;>
    first
    | omega
    | (simp <;> omega)

/-! ## Elementary facts about the table -/

theorem intent_of_serviced (s : State) (d : Direction) (h : serviced s = some d) :
    intent d s = 1 := by
  unfold serviced at h
  cases d <;> split_ifs at h <;> simp_all [intent]

theorem serviced_advance (s : State) (e : Direction) :
    serviced (advance e s) = serviced s := by
  cases e <;> rfl

theorem intent_commit (s : State) (d : Direction) : intent d (commit d s) = 0 := by
  cases d <;> rfl

theorem storeGeometry_idem (d : Direction) (bp : block_positions) :
    storeGeometry d (storeGeometry d bp) = storeGeometry d bp := by
  cases d <;> rfl

theorem commit_advance (s : State) (d : Direction) :
    commit d (advance d s) = commit d s := by
  cases d <;> rfl

theorem advanceBy_one (s : State) (d : Direction) : advanceBy d s 1 = advance d s := by
  cases d <;> simp [advanceBy, advance]

theorem advanceBy_advance (s : State) (d : Direction) (k : Nat) :
    advanceBy d (advance d s) k = advanceBy d s (k + 1) := by
  simp only [advanceBy, advance, storeGeometry_idem]
  congr 1
  push_cast
  ring

theorem callsToCommit_pos (d : Direction) (r : Int) : 1 ≤ callsToCommit d r := by
  unfold callsToCommit
  omega

theorem callsToCommit_of_lt (d : Direction) (r : Int) (h : r < commitAngle d) :
    callsToCommit d r = callsToCommit d (r + 2) + 1 := by
  unfold callsToCommit
  omega

/-! ## A whole roll -/

theorem rollUntilCleared_of_clear (d : Direction) (fuel : Nat) (s : State)
    (h : intent d s ≠ 1) : rollUntilCleared d fuel s = some s := by
  cases fuel <;> simp [rollUntilCleared, h]

/-- The trace of a roll: while direction `d` is the one serviced, the first
`callsToCommit d r - 1` calls only store the geometry of `d` and add `2` to the
angle, and call number `callsToCommit d r` commits. -/
theorem roll_trace (d : Direction) (m : Nat) :
    ∀ s : State, serviced s = some d → callsToCommit d s.block_rotation = m + 1 →
      (∀ k : Nat, 1 ≤ k → k ≤ m → check_key_functions^[k] s = advanceBy d s k) ∧
      check_key_functions^[m + 1] s = commit d s := by
  induction m with
  | zero =>
    intro s hs hm
    have hr : commitAngle d ≤ s.block_rotation := by
      unfold callsToCommit at hm
      omega
    refine ⟨fun k h1 h2 => by omega, ?_⟩
    simp [check_key_functions_some s d hs, hr]
  | succ m ih =>
    intro s hs hm
    have hr : s.block_rotation < commitAngle d := by
      unfold callsToCommit at hm
      omega
    have hstep : check_key_functions s = advance d s := by
      rw [check_key_functions_some s d hs, if_neg (not_le.mpr hr)]
    have hs2 : serviced (advance d s) = some d := by
      rw [serviced_advance]
      exact hs
    have hm2 : callsToCommit d (advance d s).block_rotation = m + 1 := by
      have := callsToCommit_of_lt d s.block_rotation hr
      have e : (advance d s).block_rotation = s.block_rotation + 2 := rfl
      rw [e]
      omega
    obtain ⟨ih1, ih2⟩ := ih (advance d s) hs2 hm2
    constructor
    · intro k h1 h2
      obtain ⟨j, rfl⟩ : ∃ j, k = j + 1 := ⟨k - 1, by omega⟩
      rw [Function.iterate_succ_apply, hstep]
      rcases Nat.eq_zero_or_pos j with hj | hj
      · subst hj
        simp [advanceBy_one]
      · rw [ih1 j hj (by omega), advanceBy_advance]
    · rw [Function.iterate_succ_apply, hstep, ih2, commit_advance]

/-- Driving a roll to completion: with enough fuel, calling
`check_key_functions` until the flag of the serviced direction is cleared
returns the committed state. -/
theorem rollUntilCleared_serviced (d : Direction) (fuel : Nat) :
    ∀ s : State, serviced s = some d → callsToCommit d s.block_rotation ≤ fuel →
      rollUntilCleared d fuel s = some (commit d s) := by
  induction fuel with
  | zero =>
    intro s _ hf
    have := callsToCommit_pos d s.block_rotation
    omega
  | succ fuel ih =>
    intro s hs hf
    have hi := intent_of_serviced s d hs
    rw [rollUntilCleared, if_pos hi, check_key_functions_some s d hs]
    by_cases hr : commitAngle d ≤ s.block_rotation
    · rw [if_pos hr]
      exact rollUntilCleared_of_clear d fuel _ (by rw [intent_commit]; decide)
    · rw [if_neg hr]
      have hlt := callsToCommit_of_lt d s.block_rotation (not_le.mp hr)
      have e : (advance d s).block_rotation = s.block_rotation + 2 := rfl
      rw [ih (advance d s) (by rw [serviced_advance]; exact hs) (by rw [e]; omega),
        commit_advance]

theorem serviced_left (s : State) (h : s.left_press = 1) : serviced s = some .Left := by
  simp [serviced, h]

theorem serviced_right (s : State) (hl : s.left_press ≠ 1) (h : s.right_press = 1) :
    serviced s = some .Right := by
  simp [serviced, hl, h]

theorem serviced_down (s : State) (hl : s.left_press ≠ 1) (hr : s.right_press ≠ 1)
    (h : s.down_press = 1) : serviced s = some .Down := by
  simp [serviced, hl, hr, h]

theorem serviced_up (s : State) (hl : s.left_press ≠ 1) (hr : s.right_press ≠ 1)
    (hd : s.down_press ≠ 1) (h : s.up_press = 1) : serviced s = some .Up := by
  simp [serviced, hl, hr, hd, h]

theorem callsToCommit_rest_le (d : Direction) : callsToCommit d 0 ≤ 46 := by
  cases d <;> simp [callsToCommit, commitAngle]

/-! ## The transition table -/

/-- C1: the Left and Right rows of the transition table.  From any rest state
(`block_rotation = 0`, any integers `x1`, `y1`) with exactly one intent
pending, calling `check_key_functions` until that intent is cleared returns a
rest state: Left takes Standing (1) to LyingAlongX (0) at `x1 - 2`, LyingAlongX
to Standing at `x1 - 1`, LyingAlongZ (2) to LyingAlongZ at `x1 - 1`; Right takes
Standing to LyingAlongX at `x1 + 1`, LyingAlongX to Standing at `x1 + 2`,
LyingAlongZ to LyingAlongZ at `x1 + 1`; `y1` is unchanged; no cell is refused
or clamped. -/
theorem left_right_rows (s : State) (fuel : Nat) (hfuel : 46 ≤ fuel)
    (hrest : s.block_rotation = 0) :
    (s.left_press = 1 → s.right_press ≠ 1 → s.down_press ≠ 1 → s.up_press ≠ 1 →
      ∃ t, rollUntilCleared .Left fuel s = some t ∧ t.left_press = 0 ∧
        (s.block_position.orientation = 1 →
          restsAt t 0 (s.block_position.x1 - 2) s.block_position.y1) ∧
        (s.block_position.orientation = 0 →
          restsAt t 1 (s.block_position.x1 - 1) s.block_position.y1) ∧
        (s.block_position.orientation = 2 →
          restsAt t 2 (s.block_position.x1 - 1) s.block_position.y1)) ∧
    (s.right_press = 1 → s.left_press ≠ 1 → s.down_press ≠ 1 → s.up_press ≠ 1 →
      ∃ t, rollUntilCleared .Right fuel s = some t ∧ t.right_press = 0 ∧
        (s.block_position.orientation = 1 →
          restsAt t 0 (s.block_position.x1 + 1) s.block_position.y1) ∧
        (s.block_position.orientation = 0 →
          restsAt t 1 (s.block_position.x1 + 2) s.block_position.y1) ∧
        (s.block_position.orientation = 2 →
          restsAt t 2 (s.block_position.x1 + 1) s.block_position.y1)) := by
  have hc : ∀ d, callsToCommit d s.block_rotation ≤ fuel := fun d => by
    rw [hrest]
    exact le_trans (callsToCommit_rest_le d) hfuel
  constructor
  · intro hl _ _ _
    refine ⟨commit .Left s,
      rollUntilCleared_serviced .Left fuel s (serviced_left s hl) (hc _), rfl, ?_, ?_, ?_⟩ <;>
    · intro ho
      simp [restsAt, commit, setIntent, storeGeometry, targetOrientation, cellDelta, ho]
      try omega
  · intro hr hl _ _
    refine ⟨commit .Right s,
      rollUntilCleared_serviced .Right fuel s (serviced_right s hl hr) (hc _), rfl, ?_, ?_, ?_⟩ <;>
    · intro ho
      simp [restsAt, commit, setIntent, storeGeometry, targetOrientation, cellDelta, ho]

/-- Instance of `left_right_rows`: from the initial cell `(5, 5)`, Standing, with
only Left pending, the roll ends LyingAlongX at `(3, 5)`. -/
theorem left_right_rows_witness :
    ∃ t, rollUntilCleared .Left 46 (setIntent .Left 1 initialiseArena) = some t ∧
      restsAt t 0 3 5 := by
  obtain ⟨t, h1, _, h2, _, _⟩ :=
    (left_right_rows (setIntent .Left 1 initialiseArena) 46 (le_refl 46) rfl).1
      rfl (by decide) (by decide) (by decide)
  exact ⟨t, h1, h2 rfl⟩

/-- C2 (as stated, refuted): from Standing at `(5, 5)` a completed Up roll ends
at `y1 = 7`, not `6`; from LyingAlongX (0) at `(5, 5)` a completed Up roll ends
LyingAlongX at `y1 = 6`, not LyingAlongZ at `y1 = 7`; from LyingAlongX a
completed Down roll ends LyingAlongX, not LyingAlongZ. -/
theorem up_down_rows_counterexample :
    (∃ t, rollUntilCleared .Up 46 (setIntent .Up 1 (restState 1 5 5)) = some t ∧
      restsAt t 2 5 7 ∧ ¬ restsAt t 2 5 (5 + 1)) ∧
    (∃ t, rollUntilCleared .Up 46 (setIntent .Up 1 (restState 0 5 5)) = some t ∧
      restsAt t 0 5 6 ∧ ¬ restsAt t 2 5 (5 + 2)) ∧
    (∃ t, rollUntilCleared .Down 46 (setIntent .Down 1 (restState 0 5 5)) = some t ∧
      restsAt t 0 5 4 ∧ ¬ restsAt t 2 5 (5 - 1)) := by
  refine ⟨⟨_, rollUntilCleared_serviced .Up 46 _ rfl (by decide), ?_, ?_⟩,
    ⟨_, rollUntilCleared_serviced .Up 46 _ rfl (by decide), ?_, ?_⟩,
    ⟨_, rollUntilCleared_serviced .Down 46 _ rfl (by decide), ?_, ?_⟩⟩ <;>
  simp [restsAt, commit, setIntent, storeGeometry, targetOrientation, cellDelta, restState,
    initialiseArena]

/-- C2 (amended): the Up and Down rows as the code commits them.  From any rest
state with exactly one intent pending, calling `check_key_functions` until that
intent is cleared returns a rest state: Up takes Standing (1) to LyingAlongZ (2)
at `y1 + 2`, LyingAlongX (0) to LyingAlongX at `y1 + 1`, LyingAlongZ to Standing
at `y1 + 1`; Down takes Standing to LyingAlongZ at `y1 - 1`, LyingAlongX to
LyingAlongX at `y1 - 1`, LyingAlongZ to Standing at `y1 - 2`; `x1` is
unchanged. -/
theorem up_down_rows (s : State) (fuel : Nat) (hfuel : 46 ≤ fuel)
    (hrest : s.block_rotation = 0) :
    (s.up_press = 1 → s.left_press ≠ 1 → s.right_press ≠ 1 → s.down_press ≠ 1 →
      ∃ t, rollUntilCleared .Up fuel s = some t ∧ t.up_press = 0 ∧
        (s.block_position.orientation = 1 →
          restsAt t 2 s.block_position.x1 (s.block_position.y1 + 2)) ∧
        (s.block_position.orientation = 0 →
          restsAt t 0 s.block_position.x1 (s.block_position.y1 + 1)) ∧
        (s.block_position.orientation = 2 →
          restsAt t 1 s.block_position.x1 (s.block_position.y1 + 1))) ∧
    (s.down_press = 1 → s.left_press ≠ 1 → s.right_press ≠ 1 → s.up_press ≠ 1 →
      ∃ t, rollUntilCleared .Down fuel s = some t ∧ t.down_press = 0 ∧
        (s.block_position.orientation = 1 →
          restsAt t 2 s.block_position.x1 (s.block_position.y1 - 1)) ∧
        (s.block_position.orientation = 0 →
          restsAt t 0 s.block_position.x1 (s.block_position.y1 - 1)) ∧
        (s.block_position.orientation = 2 →
          restsAt t 1 s.block_position.x1 (s.block_position.y1 - 2))) := by
  have hc : ∀ d, callsToCommit d s.block_rotation ≤ fuel := fun d => by
    rw [hrest]
    exact le_trans (callsToCommit_rest_le d) hfuel
  constructor
  · intro hu hl hr hd
    refine ⟨commit .Up s,
      rollUntilCleared_serviced .Up fuel s (serviced_up s hl hr hd hu) (hc _), rfl, ?_, ?_, ?_⟩ <;>
    · intro ho
      simp [restsAt, commit, setIntent, storeGeometry, targetOrientation, cellDelta, ho]
  · intro hd hl hr _
    refine ⟨commit .Down s,
      rollUntilCleared_serviced .Down fuel s (serviced_down s hl hr hd) (hc _), rfl, ?_, ?_, ?_⟩ <;>
    · intro ho
      simp [restsAt, commit, setIntent, storeGeometry, targetOrientation, cellDelta, ho]
      try omega

/-- Instance of `up_down_rows`: from the initial cell `(5, 5)`, Standing, with
only Up pending, the roll ends LyingAlongZ at `(5, 7)`. -/
theorem up_down_rows_witness :
    ∃ t, rollUntilCleared .Up 46 (setIntent .Up 1 initialiseArena) = some t ∧
      restsAt t 2 5 7 := by
  obtain ⟨t, h1, _, h2, _, _⟩ :=
    (up_down_rows (setIntent .Up 1 initialiseArena) 46 (le_refl 46) rfl).1
      rfl (by decide) (by decide) (by decide)
  exact ⟨t, h1, h2 rfl⟩

/-! ## Priority and redirection -/

theorem serviced_of_rank (s : State) (d : Direction) (hd : intent d s = 1)
    (hprio : ∀ e, intent e s = 1 → rank d ≤ rank e) : serviced s = some d := by
  have hL := hprio .Left
  have hR := hprio .Right
  have hD := hprio .Down
  unfold serviced
  cases d <;> simp only [intent, rank] at hd hL hR hD <;> split_ifs <;>
    first
    | rfl
    | (exfalso; omega)

theorem keyboard_press (s : State) (e : Direction) (sc mods : Int) :
    keyboard s (keyOf e) sc GLFW_PRESS mods = setIntent e 1 s := by
  cases e <;> rfl

theorem serviced_setIntent_lower (s : State) (d e : Direction) (hd : serviced s = some d)
    (hlow : rank d < rank e) : serviced (setIntent e 1 s) = some d := by
  unfold serviced at hd ⊢
  cases d <;> cases e <;> simp only [rank] at hlow <;>
    first
    | omega
    | (simp only [setIntent]; split_ifs at hd ⊢ <;> first | rfl | contradiction)

theorem intent_commit_other (s : State) (d e : Direction) (h : e ≠ d) :
    intent e (commit d s) = intent e s := by
  cases d <;> cases e <;> first | rfl | contradiction

theorem intent_setIntent_self (s : State) (e : Direction) (v : Int) :
    intent e (setIntent e v s) = v := by
  cases e <;> rfl

theorem Reachable_iterate (n : Nat) :
    ∀ s : State, Reachable s → Reachable (check_key_functions^[n] s) := by
  induction n with
  | zero => exact fun s h => h
  | succ n ih =>
    intro s h
    rw [Function.iterate_succ_apply]
    exact ih _ (Reachable.tick s h)

/-- C3: fixed priority Left > Right > Down > Up.  At rest, if `d` is pending
and no pending direction ranks before `d`, then one call of
`check_key_functions` services `d` alone: it stores the axis and the pivot
offset of `d`, advances `block_rotation` from `0` to `2`, and leaves every
flag, the orientation and the cell as they were. -/
theorem priority_order (s : State) (d : Direction) (hrest : s.block_rotation = 0)
    (hd : intent d s = 1) (hprio : ∀ e, intent e s = 1 → rank d ≤ rank e) :
    ((check_key_functions s).block_position.x_axis,
      (check_key_functions s).block_position.y_axis,
      (check_key_functions s).block_position.z_axis) = axisOf d ∧
    ((check_key_functions s).block_position.translate_x,
      (check_key_functions s).block_position.translate_y,
      (check_key_functions s).block_position.translate_z) =
        pivotOf d s.block_position.orientation ∧
    (check_key_functions s).block_rotation = 2 ∧
    (∀ e, intent e (check_key_functions s) = intent e s) ∧
    (check_key_functions s).block_position.orientation = s.block_position.orientation ∧
    (check_key_functions s).block_position.x1 = s.block_position.x1 ∧
    (check_key_functions s).block_position.y1 = s.block_position.y1 := by
  have hs := serviced_of_rank s d hd hprio
  have hlt : ¬ commitAngle d ≤ s.block_rotation := by
    rw [hrest]
    cases d <;> decide
  rw [check_key_functions_some s d hs, if_neg hlt]
  refine ⟨rfl, rfl, ?_, ?_, rfl, rfl, rfl⟩
  · simp [advance, hrest]
  · intro e
    cases e <;> rfl

/-- Instance of `priority_order`: with Left and Up both pending at rest in the
initial position, the call stores the axis `(0, 0, 1)` of Left and leaves
`up_press` set. -/
theorem priority_order_witness :
    ((check_key_functions (setIntent .Up 1 (setIntent .Left 1 initialiseArena))).block_position.x_axis,
      (check_key_functions (setIntent .Up 1 (setIntent .Left 1 initialiseArena))).block_position.y_axis,
      (check_key_functions (setIntent .Up 1 (setIntent .Left 1 initialiseArena))).block_position.z_axis)
        = (0, 0, 1) ∧
    (check_key_functions (setIntent .Up 1 (setIntent .Left 1 initialiseArena))).up_press = 1 := by
  have h := priority_order (setIntent .Up 1 (setIntent .Left 1 initialiseArena)) .Left rfl rfl
    (fun e _ => Nat.zero_le (rank e))
  exact ⟨h.1, h.2.2.2.1 .Up⟩

/-- C4 (as stated, refuted): ten calls after Up was pressed in the initial
state an Up roll is under way (`up_press = 1`, angle `20`, nothing committed).
A Left key press then takes the roll over: the next call stores the axis
`(0, 0, 1)` of Left instead of the axis `(-1, 0, 0)` of Up, the calls keep the
angle rising from `20`, and the next commit, in call 35, applies the Left
transition (LyingAlongX at `(3, 5)`) and clears `left_press`, while `up_press`
is still set; the Up transition (LyingAlongZ at `(5, 7)`) is not applied. -/
theorem roll_redirected_counterexample :
    Reachable (press .Left (check_key_functions^[10] (press .Up initialiseArena))) ∧
    (check_key_functions^[10] (press .Up initialiseArena)).up_press = 1 ∧
    (check_key_functions^[10] (press .Up initialiseArena)).block_rotation = 20 ∧
    (check_key_functions^[10] (press .Up initialiseArena)).block_position.orientation = 1 ∧
    (check_key_functions
      (press .Left (check_key_functions^[10] (press .Up initialiseArena)))).block_position.z_axis = 1 ∧
    (check_key_functions
      (press .Left (check_key_functions^[10] (press .Up initialiseArena)))).block_position.x_axis = 0 ∧
    (∀ k, k < 35 →
      (check_key_functions^[k]
        (press .Left (check_key_functions^[10] (press .Up initialiseArena)))).block_rotation
          = 20 + 2 * (k : Int)) ∧
    restsAt (check_key_functions^[35]
      (press .Left (check_key_functions^[10] (press .Up initialiseArena)))) 0 3 5 ∧
    (check_key_functions^[35]
      (press .Left (check_key_functions^[10] (press .Up initialiseArena)))).left_press = 0 ∧
    (check_key_functions^[35]
      (press .Left (check_key_functions^[10] (press .Up initialiseArena)))).up_press = 1 := by
  refine ⟨?_, by decide, by decide, by decide, by decide, by decide, by decide, by decide,
    by decide, by decide⟩
  exact Reachable.key _ _ _ _ _
    (Reachable_iterate 10 _ (Reachable.key _ _ _ _ _ Reachable.init))

/-- C4 (amended): a roll cannot be cancelled or redirected by a key press of
lower priority.  If `d` is the direction being serviced (its flag is `1` and no
flag before it in the order Left, Right, Down, Up is `1`) with
`0 < block_rotation`, and a key press for a direction `e` after `d` in that
order arrives, then every following call before the commit stores the axis and
pivot offset of `d`, adds `2` to the angle and leaves orientation, cell and
both flags alone, and call number `callsToCommit d block_rotation` commits the
transition of `d`, clears the flag of `d` and leaves the flag of `e` set. -/
theorem roll_not_redirected_by_lower (s : State) (d e : Direction) (sc mods : Int)
    (hd : serviced s = some d) (_hroll : 0 < s.block_rotation) (hlow : rank d < rank e) :
    (∀ k : Nat, 1 ≤ k → k < callsToCommit d s.block_rotation →
      ((check_key_functions^[k] (keyboard s (keyOf e) sc GLFW_PRESS mods)).block_position.x_axis,
        (check_key_functions^[k] (keyboard s (keyOf e) sc GLFW_PRESS mods)).block_position.y_axis,
        (check_key_functions^[k] (keyboard s (keyOf e) sc GLFW_PRESS mods)).block_position.z_axis)
          = axisOf d ∧
      ((check_key_functions^[k] (keyboard s (keyOf e) sc GLFW_PRESS mods)).block_position.translate_x,
        (check_key_functions^[k] (keyboard s (keyOf e) sc GLFW_PRESS mods)).block_position.translate_y,
        (check_key_functions^[k] (keyboard s (keyOf e) sc GLFW_PRESS mods)).block_position.translate_z)
          = pivotOf d s.block_position.orientation ∧
      (check_key_functions^[k] (keyboard s (keyOf e) sc GLFW_PRESS mods)).block_rotation
        = s.block_rotation + 2 * (k : Int) ∧
      (check_key_functions^[k] (keyboard s (keyOf e) sc GLFW_PRESS mods)).block_position.orientation
        = s.block_position.orientation ∧
      (check_key_functions^[k] (keyboard s (keyOf e) sc GLFW_PRESS mods)).block_position.x1
        = s.block_position.x1 ∧
      (check_key_functions^[k] (keyboard s (keyOf e) sc GLFW_PRESS mods)).block_position.y1
        = s.block_position.y1 ∧
      intent d (check_key_functions^[k] (keyboard s (keyOf e) sc GLFW_PRESS mods)) = 1 ∧
      intent e (check_key_functions^[k] (keyboard s (keyOf e) sc GLFW_PRESS mods)) = 1) ∧
    (check_key_functions^[callsToCommit d s.block_rotation]
      (keyboard s (keyOf e) sc GLFW_PRESS mods)).block_rotation = 0 ∧
    (check_key_functions^[callsToCommit d s.block_rotation]
      (keyboard s (keyOf e) sc GLFW_PRESS mods)).block_position.orientation
        = targetOrientation d s.block_position.orientation ∧
    (check_key_functions^[callsToCommit d s.block_rotation]
      (keyboard s (keyOf e) sc GLFW_PRESS mods)).block_position.x1
        = s.block_position.x1 + (cellDelta d s.block_position.orientation).1 ∧
    (check_key_functions^[callsToCommit d s.block_rotation]
      (keyboard s (keyOf e) sc GLFW_PRESS mods)).block_position.y1
        = s.block_position.y1 + (cellDelta d s.block_position.orientation).2 ∧
    intent d (check_key_functions^[callsToCommit d s.block_rotation]
      (keyboard s (keyOf e) sc GLFW_PRESS mods)) = 0 ∧
    intent e (check_key_functions^[callsToCommit d s.block_rotation]
      (keyboard s (keyOf e) sc GLFW_PRESS mods)) = 1 := by
  have hne : e ≠ d := by
    rintro rfl
    omega
  have hs2 := serviced_setIntent_lower s d e hd hlow
  have hrot : (setIntent e 1 s).block_rotation = s.block_rotation := by cases e <;> rfl
  have hbp : (setIntent e 1 s).block_position = s.block_position := by cases e <;> rfl
  obtain ⟨m, hm⟩ : ∃ m, callsToCommit d s.block_rotation = m + 1 :=
    ⟨callsToCommit d s.block_rotation - 1, by have := callsToCommit_pos d s.block_rotation; omega⟩
  obtain ⟨h1, h2⟩ := roll_trace d m (setIntent e 1 s) hs2 (by rw [hrot]; exact hm)
  rw [keyboard_press, hm]
  refine ⟨?_, ?_⟩
  · intro k hk1 hk2
    rw [h1 k hk1 (by omega)]
    have hi : intent d (advanceBy d (setIntent e 1 s) k) = intent d (setIntent e 1 s) := by
      cases d <;> rfl
    have hj : intent e (advanceBy d (setIntent e 1 s) k) = intent e (setIntent e 1 s) := by
      cases e <;> rfl
    refine ⟨rfl, ?_, ?_, ?_, ?_, ?_, ?_, ?_⟩
    · simp [advanceBy, storeGeometry, hbp]
    · simp [advanceBy, hrot]
    · simp [advanceBy, storeGeometry, hbp]
    · simp [advanceBy, storeGeometry, hbp]
    · simp [advanceBy, storeGeometry, hbp]
    · rw [hi]
      exact intent_of_serviced _ d hs2
    · rw [hj, intent_setIntent_self]
  · rw [h2]
    have hc : ∀ v : State, (commit d v).block_position.orientation
        = targetOrientation d v.block_position.orientation ∧
        (commit d v).block_position.x1 = v.block_position.x1 + (cellDelta d v.block_position.orientation).1 ∧
        (commit d v).block_position.y1 = v.block_position.y1 + (cellDelta d v.block_position.orientation).2 ∧
        (commit d v).block_rotation = 0 := by
      intro v
      cases d <;> exact ⟨rfl, rfl, rfl, rfl⟩
    obtain ⟨c1, c2, c3, c4⟩ := hc (setIntent e 1 s)
    rw [hbp] at c1 c2 c3
    refine ⟨c4, c1, c2, c3, intent_commit _ d, ?_⟩
    rw [intent_commit_other _ d e hne, intent_setIntent_self]

/-- Instance of `roll_not_redirected_by_lower`: a Left roll under way at angle
`20` in the initial position, then Up pressed: call 35 commits the Left
transition (LyingAlongX at `x1 = 3`), clears `left_press` and leaves `up_press`
set. -/
theorem roll_not_redirected_by_lower_witness :
    (check_key_functions^[35]
      (keyboard (check_key_functions^[10] (press .Left initialiseArena))
        GLFW_KEY_UP 0 GLFW_PRESS 0)).block_position.orientation = 0 ∧
    (check_key_functions^[35]
      (keyboard (check_key_functions^[10] (press .Left initialiseArena))
        GLFW_KEY_UP 0 GLFW_PRESS 0)).block_position.x1 = 3 ∧
    (check_key_functions^[35]
      (keyboard (check_key_functions^[10] (press .Left initialiseArena))
        GLFW_KEY_UP 0 GLFW_PRESS 0)).left_press = 0 ∧
    (check_key_functions^[35]
      (keyboard (check_key_functions^[10] (press .Left initialiseArena))
        GLFW_KEY_UP 0 GLFW_PRESS 0)).up_press = 1 := by
  have h := roll_not_redirected_by_lower
    (check_key_functions^[10] (press .Left initialiseArena)) .Left .Up 0 0
    (by decide) (by decide) (by decide)
  exact ⟨h.2.2.1, h.2.2.2.1, h.2.2.2.2.2.1, h.2.2.2.2.2.2⟩

/-! ## Commit and the angle -/

theorem advance_fields (s : State) (d : Direction) :
    (advance d s).block_position.x1 = s.block_position.x1 ∧
    (advance d s).block_position.y1 = s.block_position.y1 ∧
    (advance d s).block_position.orientation = s.block_position.orientation ∧
    (advance d s).left_press = s.left_press ∧
    (advance d s).right_press = s.right_press ∧
    (advance d s).up_press = s.up_press ∧
    (advance d s).down_press = s.down_press ∧
    (advance d s).block_rotation = s.block_rotation + 2 :=
  ⟨rfl, rfl, rfl, rfl, rfl, rfl, rfl, rfl⟩

theorem commit_fields (s : State) (d : Direction) :
    (commit d s).block_rotation = 0 ∧
    (commit d s).block_position.orientation = targetOrientation d s.block_position.orientation ∧
    (commit d s).block_position.x1 =
      s.block_position.x1 + (cellDelta d s.block_position.orientation).1 ∧
    (commit d s).block_position.y1 =
      s.block_position.y1 + (cellDelta d s.block_position.orientation).2 := by
  cases d <;> exact ⟨rfl, rfl, rfl, rfl⟩

theorem commits_of_serviced (s : State) (d : Direction) (h : serviced s = some d) :
    commits s = decide (commitAngle d ≤ s.block_rotation) := by
  simp [commits, h]

theorem keyboard_block_rotation (s : State) (key sc action mods : Int) :
    (keyboard s key sc action mods).block_rotation = s.block_rotation := by
  unfold keyboard
  split_ifs <;> rfl

theorem keyboard_intent (s : State) (key sc action mods : Int) (e : Direction) :
    intent e (keyboard s key sc action mods) = intent e s ∨
      intent e (keyboard s key sc action mods) = 1 := by
  unfold keyboard
  split_ifs <;> cases e <;> simp [intent, quit]

theorem commitAngle_le (d : Direction) : commitAngle d ≤ 90 := by
  cases d <;> decide

theorem Reachable_angle (s : State) (h : Reachable s) :
    2 ∣ s.block_rotation ∧ 0 ≤ s.block_rotation ∧ s.block_rotation ≤ 90 := by
  induction h with
  | init => decide
  | key s key sc action mods _ ih =>
    rw [keyboard_block_rotation]
    exact ih
  | tick s _ ih =>
    cases hs : serviced s with
    | none =>
      rw [check_key_functions_none s hs]
      exact ih
    | some d =>
      rw [check_key_functions_some s d hs]
      split_ifs with hr
      · rw [(commit_fields s d).1]
        decide
      · rw [(advance_fields s d).2.2.2.2.2.2.2]
        have := commitAngle_le d
        obtain ⟨⟨c, hc⟩, h0, _⟩ := ih
        refine ⟨⟨c + 1, by omega⟩, by omega, by omega⟩

/-- C5: atomic commit.  A call of `check_key_functions` that does not take a
committing branch leaves `x1`, `y1`, `orientation` and the four flags as they
were; a call that takes one sets `block_rotation` to `0`, stores the target
orientation and adds the cell delta of the serviced direction, clears the flag
of that direction (it was `1`, it becomes `0`) and leaves the other three flags
as they were.  Unless the angle before the call is `-2`, the committing calls
are exactly the calls that service a direction and return
`block_rotation = 0`. -/
theorem atomic_commit (s : State) :
    (commits s = false →
      (check_key_functions s).block_position.x1 = s.block_position.x1 ∧
      (check_key_functions s).block_position.y1 = s.block_position.y1 ∧
      (check_key_functions s).block_position.orientation = s.block_position.orientation ∧
      (check_key_functions s).left_press = s.left_press ∧
      (check_key_functions s).right_press = s.right_press ∧
      (check_key_functions s).up_press = s.up_press ∧
      (check_key_functions s).down_press = s.down_press) ∧
    (commits s = true →
      ∃ d, serviced s = some d ∧
        (check_key_functions s).block_rotation = 0 ∧
        (check_key_functions s).block_position.orientation
          = targetOrientation d s.block_position.orientation ∧
        (check_key_functions s).block_position.x1
          = s.block_position.x1 + (cellDelta d s.block_position.orientation).1 ∧
        (check_key_functions s).block_position.y1
          = s.block_position.y1 + (cellDelta d s.block_position.orientation).2 ∧
        intent d s = 1 ∧
        intent d (check_key_functions s) = 0 ∧
        ∀ e, e ≠ d → intent e (check_key_functions s) = intent e s) ∧
    (s.block_rotation ≠ -2 →
      (commits s = true ↔
        serviced s ≠ none ∧ (check_key_functions s).block_rotation = 0)) := by
  cases hs : serviced s with
  | none =>
    have hc : commits s = false := by simp [commits, hs]
    rw [check_key_functions_none s hs]
    refine ⟨fun _ => ⟨rfl, rfl, rfl, rfl, rfl, rfl, rfl⟩, fun h => ?_, fun _ => ?_⟩
    · rw [hc] at h
      exact absurd h (by decide)
    · simp [hc]
  | some d =>
    have hc := commits_of_serviced s d hs
    rw [check_key_functions_some s d hs]
    by_cases hr : commitAngle d ≤ s.block_rotation
    · rw [if_pos hr]
      have hct : commits s = true := by simp [hc, hr]
      obtain ⟨c1, c2, c3, c4⟩ := commit_fields s d
      refine ⟨fun h => ?_, fun _ => ⟨d, rfl, c1, c2, c3, c4, intent_of_serviced s d hs,
        intent_commit s d, fun e he => intent_commit_other s d e he⟩, fun _ => ?_⟩
      · rw [hct] at h
        exact absurd h (by decide)
      · simp [hct, c1]
    · rw [if_neg hr]
      have hcf : commits s = false := by simp [hc, hr]
      obtain ⟨a1, a2, a3, a4, a5, a6, a7, a8⟩ := advance_fields s d
      refine ⟨fun _ => ⟨a1, a2, a3, a4, a5, a6, a7⟩, fun h => ?_, fun h2 => ?_⟩
      · rw [hcf] at h
        exact absurd h (by decide)
      · rw [hcf, a8]
        constructor
        · intro h
          exact absurd h (by decide)
        · rintro ⟨_, h0⟩
          exfalso
          omega

/-- Instance of `atomic_commit`: the Right roll from the initial position at
angle `90` commits; the call resets the angle and clears `right_press`. -/
theorem atomic_commit_witness :
    ∃ d, serviced (check_key_functions^[45] (press .Right initialiseArena)) = some d ∧
      (check_key_functions
        (check_key_functions^[45] (press .Right initialiseArena))).block_rotation = 0 ∧
      intent d (check_key_functions
        (check_key_functions^[45] (press .Right initialiseArena))) = 0 := by
  obtain ⟨d, h1, h2, _, _, _, _, h3, _⟩ :=
    (atomic_commit (check_key_functions^[45] (press .Right initialiseArena))).2.1 (by decide)
  exact ⟨d, h1, h2, h3⟩

/-- C6: the angle invariant.  In every reachable state `block_rotation` is even
and lies in `[0, 90]`.  A call of `check_key_functions` made in a reachable
state either finds no intent pending and changes nothing, or services a
direction without committing, adding exactly `2` to the angle and leaving every
flag alone, or commits, resetting the angle to `0` and clearing the flag of the
serviced direction and no other.  Over a roll of the serviced direction `d` the
flag of `d` stays `1` through the first `callsToCommit d block_rotation - 1`
calls and is `0` after the next one, the committing call.  No key event clears
a flag. -/
theorem angle_invariant (s : State) (h : Reachable s) :
    (2 ∣ s.block_rotation ∧ 0 ≤ s.block_rotation ∧ s.block_rotation ≤ 90) ∧
    ((serviced s = none ∧ check_key_functions s = s) ∨
      (∃ d, serviced s = some d ∧ commits s = false ∧
        (check_key_functions s).block_rotation = s.block_rotation + 2 ∧
        ∀ e, intent e (check_key_functions s) = intent e s) ∨
      (∃ d, serviced s = some d ∧ commits s = true ∧
        (check_key_functions s).block_rotation = 0 ∧
        intent d s = 1 ∧ intent d (check_key_functions s) = 0 ∧
        ∀ e, e ≠ d → intent e (check_key_functions s) = intent e s)) ∧
    (∀ d, serviced s = some d →
      (∀ k : Nat, k < callsToCommit d s.block_rotation →
        intent d (check_key_functions^[k] s) = 1) ∧
      intent d (check_key_functions^[callsToCommit d s.block_rotation] s) = 0) ∧
    (∀ (key sc action mods : Int) (e : Direction),
      intent e (keyboard s key sc action mods) = intent e s ∨
        intent e (keyboard s key sc action mods) = 1) := by
  refine ⟨Reachable_angle s h, ?_, ?_, fun key sc action mods e =>
    keyboard_intent s key sc action mods e⟩
  · cases hs : serviced s with
    | none => exact Or.inl ⟨rfl, check_key_functions_none s hs⟩
    | some d =>
      have hc := commits_of_serviced s d hs
      rw [check_key_functions_some s d hs]
      by_cases hr : commitAngle d ≤ s.block_rotation
      · rw [if_pos hr]
        exact Or.inr (Or.inr ⟨d, rfl, by simp [hc, hr], (commit_fields s d).1,
          intent_of_serviced s d hs, intent_commit s d,
          fun e he => intent_commit_other s d e he⟩)
      · rw [if_neg hr]
        refine Or.inr (Or.inl ⟨d, rfl, by simp [hc, hr], rfl, fun e => ?_⟩)
        cases e <;> rfl
  · intro d hs
    obtain ⟨m, hm⟩ : ∃ m, callsToCommit d s.block_rotation = m + 1 :=
      ⟨callsToCommit d s.block_rotation - 1, by
        have := callsToCommit_pos d s.block_rotation
        omega⟩
    obtain ⟨h1, h2⟩ := roll_trace d m s hs hm
    rw [hm, h2]
    refine ⟨fun k hk => ?_, intent_commit s d⟩
    rcases Nat.eq_zero_or_pos k with hk0 | hk0
    · subst hk0
      exact intent_of_serviced s d hs
    · rw [h1 k hk0 (by omega)]
      have hi : intent d (advanceBy d s k) = intent d s := by cases d <;> rfl
      rw [hi]
      exact intent_of_serviced s d hs

/-- Instance of `angle_invariant`: the state ten calls after Right was pressed
in the initial state is reachable, and its angle is even and within
`[0, 90]`. -/
theorem angle_invariant_witness :
    2 ∣ (check_key_functions^[10] (press .Right initialiseArena)).block_rotation ∧
    0 ≤ (check_key_functions^[10] (press .Right initialiseArena)).block_rotation ∧
    (check_key_functions^[10] (press .Right initialiseArena)).block_rotation ≤ 90 :=
  (angle_invariant (check_key_functions^[10] (press .Right initialiseArena))
    (Reachable_iterate 10 _ (Reachable.key _ _ _ _ _ Reachable.init))).1

/-- C7 (evaluation at the failing input): from the initial position with only
Right pending, the 45th call of `check_key_functions` returns
`block_rotation = 90` with `right_press` still `1` and the block still Standing
at `x1 = 5`; the commit (LyingAlongX at `(6, 5)`, flag cleared) is made by the
46th call.  The same holds for Down (commit to LyingAlongZ at `(5, 4)` in the
46th call).  From the same position with only Left pending the 45th call
commits (LyingAlongX at `(3, 5)`) and no call returns `block_rotation = 90`. -/
theorem right_down_commit_one_call_late :
    (check_key_functions^[45] (press .Right initialiseArena)).block_rotation = 90 ∧
    (check_key_functions^[45] (press .Right initialiseArena)).right_press = 1 ∧
    (check_key_functions^[45] (press .Right initialiseArena)).block_position.orientation = 1 ∧
    (check_key_functions^[45] (press .Right initialiseArena)).block_position.x1 = 5 ∧
    restsAt (check_key_functions^[46] (press .Right initialiseArena)) 0 6 5 ∧
    (check_key_functions^[46] (press .Right initialiseArena)).right_press = 0 ∧
    (check_key_functions^[45] (press .Down initialiseArena)).block_rotation = 90 ∧
    (check_key_functions^[45] (press .Down initialiseArena)).down_press = 1 ∧
    (check_key_functions^[45] (press .Down initialiseArena)).block_position.orientation = 1 ∧
    (check_key_functions^[45] (press .Down initialiseArena)).block_position.y1 = 5 ∧
    restsAt (check_key_functions^[46] (press .Down initialiseArena)) 2 5 4 ∧
    (check_key_functions^[46] (press .Down initialiseArena)).down_press = 0 ∧
    restsAt (check_key_functions^[45] (press .Left initialiseArena)) 0 3 5 ∧
    (check_key_functions^[45] (press .Left initialiseArena)).left_press = 0 ∧
    (∀ k, k < 46 →
      (check_key_functions^[k] (press .Left initialiseArena)).block_rotation ≠ 90) := by
  refine ⟨by decide, by decide, by decide, by decide, by decide, by decide, by decide,
    by decide, by decide, by decide, by decide, by decide, by decide, by decide, ?_⟩
  decide

/-! ## Geometry stored by a serviced call -/

theorem commit_geometry (s : State) (d : Direction) :
    ((commit d s).block_position.translate_x, (commit d s).block_position.translate_y,
      (commit d s).block_position.translate_z) = pivotOf d s.block_position.orientation ∧
    ((commit d s).block_position.x_axis, (commit d s).block_position.y_axis,
      (commit d s).block_position.z_axis) = axisOf d := by
  cases d <;> exact ⟨rfl, rfl⟩

/-- The pivot offset and axis found in the state after any call that services
direction `d`, committing or not. -/
theorem serviced_geometry (s : State) (d : Direction) (h : serviced s = some d) :
    ((check_key_functions s).block_position.translate_x,
      (check_key_functions s).block_position.translate_y,
      (check_key_functions s).block_position.translate_z)
        = pivotOf d s.block_position.orientation ∧
    ((check_key_functions s).block_position.x_axis,
      (check_key_functions s).block_position.y_axis,
      (check_key_functions s).block_position.z_axis) = axisOf d := by
  rw [check_key_functions_some s d h]
  split_ifs
  · exact commit_geometry s d
  · exact ⟨rfl, rfl⟩

/-- C8 (as stated, refuted): servicing Down from LyingAlongX (0) stores the
pivot offset `(0, 0, -1)`, not `(0, 0, -2)`, and servicing Down from
LyingAlongZ (2) stores `(0, 0, -2)`, not `(0, 0, -1)`. -/
theorem pivot_offsets_counterexample :
    serviced (press .Down (restState 0 5 5)) = some .Down ∧
    ((check_key_functions (press .Down (restState 0 5 5))).block_position.translate_x,
      (check_key_functions (press .Down (restState 0 5 5))).block_position.translate_y,
      (check_key_functions (press .Down (restState 0 5 5))).block_position.translate_z)
        = (0, 0, -1) ∧
    (check_key_functions (press .Down (restState 0 5 5))).block_position.translate_z ≠ -2 ∧
    serviced (press .Down (restState 2 5 5)) = some .Down ∧
    ((check_key_functions (press .Down (restState 2 5 5))).block_position.translate_x,
      (check_key_functions (press .Down (restState 2 5 5))).block_position.translate_y,
      (check_key_functions (press .Down (restState 2 5 5))).block_position.translate_z)
        = (0, 0, -2) ∧
    (check_key_functions (press .Down (restState 2 5 5))).block_position.translate_z ≠ -1 := by
  decide

/-- C8 (amended): the pivot offsets the code stores.  Whenever
`check_key_functions` services direction `d` from orientation `o`, the stored
`(translate_x, translate_y, translate_z)` is `(0,0,0)` for Left and for Up from
every orientation; `(-1,0,0)` for Right from Standing (1) and LyingAlongZ (2),
`(-2,0,0)` for Right from LyingAlongX (0); `(0,0,-1)` for Down from Standing and
from LyingAlongX, `(0,0,-2)` for Down from LyingAlongZ. -/
theorem pivot_offsets (s : State) (d : Direction) (h : serviced s = some d) :
    (d = .Left ∨ d = .Up →
      ((check_key_functions s).block_position.translate_x,
        (check_key_functions s).block_position.translate_y,
        (check_key_functions s).block_position.translate_z) = (0, 0, 0)) ∧
    (d = .Right →
      (s.block_position.orientation = 1 ∨ s.block_position.orientation = 2 →
        ((check_key_functions s).block_position.translate_x,
          (check_key_functions s).block_position.translate_y,
          (check_key_functions s).block_position.translate_z) = (-1, 0, 0)) ∧
      (s.block_position.orientation = 0 →
        ((check_key_functions s).block_position.translate_x,
          (check_key_functions s).block_position.translate_y,
          (check_key_functions s).block_position.translate_z) = (-2, 0, 0))) ∧
    (d = .Down →
      (s.block_position.orientation = 1 ∨ s.block_position.orientation = 0 →
        ((check_key_functions s).block_position.translate_x,
          (check_key_functions s).block_position.translate_y,
          (check_key_functions s).block_position.translate_z) = (0, 0, -1)) ∧
      (s.block_position.orientation = 2 →
        ((check_key_functions s).block_position.translate_x,
          (check_key_functions s).block_position.translate_y,
          (check_key_functions s).block_position.translate_z) = (0, 0, -2))) := by
  rw [(serviced_geometry s d h).1]
  refine ⟨?_, ?_, ?_⟩
  · rintro (rfl | rfl) <;> rfl
  · rintro rfl
    refine ⟨?_, ?_⟩
    · rintro (ho | ho) <;> simp [pivotOf, ho]
    · intro ho
      simp [pivotOf, ho]
  · rintro rfl
    refine ⟨?_, ?_⟩
    · rintro (ho | ho) <;> simp [pivotOf, ho]
    · intro ho
      simp [pivotOf, ho]

/-- Instance of `pivot_offsets`: Down serviced from LyingAlongZ (2) at `(5, 5)`
stores the pivot offset `(0, 0, -2)`. -/
theorem pivot_offsets_witness :
    ((check_key_functions (press .Down (restState 2 5 5))).block_position.translate_x,
      (check_key_functions (press .Down (restState 2 5 5))).block_position.translate_y,
      (check_key_functions (press .Down (restState 2 5 5))).block_position.translate_z)
        = (0, 0, -2) :=
  ((pivot_offsets (press .Down (restState 2 5 5)) .Down (by decide)).2.2 rfl).2 (by decide)

/-- C9: the rotation axis of a roll.  Whenever `check_key_functions` services
direction `d`, the stored `(x_axis, y_axis, z_axis)` is `(0,0,1)` for Left,
`(0,0,-1)` for Right, `(-1,0,0)` for Up and `(1,0,0)` for Down, whatever the
orientation; it has length one; and it is orthogonal to the motion: its dot
product with the displacement `(dx1, 0, -dy1)` that `draw_block` gives the
committed cell delta is `0` (the axis is along Z for Left and Right, which move
along X, and along X for Up and Down, which move along Z). -/
theorem rotation_axis (s : State) (d : Direction) (h : serviced s = some d) :
    ((check_key_functions s).block_position.x_axis,
      (check_key_functions s).block_position.y_axis,
      (check_key_functions s).block_position.z_axis)
        = (match d with
          | .Left => (0, 0, 1)
          | .Right => (0, 0, -1)
          | .Up => (-1, 0, 0)
          | .Down => (1, 0, 0)) ∧
    (check_key_functions s).block_position.x_axis ^ 2 +
      (check_key_functions s).block_position.y_axis ^ 2 +
      (check_key_functions s).block_position.z_axis ^ 2 = 1 ∧
    (check_key_functions s).block_position.x_axis *
        (cellDelta d s.block_position.orientation).1 +
      (check_key_functions s).block_position.y_axis * 0 +
      (check_key_functions s).block_position.z_axis *
        (-(cellDelta d s.block_position.orientation).2) = 0 ∧
    (d = .Left ∨ d = .Right →
      (check_key_functions s).block_position.x_axis = 0 ∧
      (cellDelta d s.block_position.orientation).2 = 0) ∧
    (d = .Up ∨ d = .Down →
      (check_key_functions s).block_position.z_axis = 0 ∧
      (cellDelta d s.block_position.orientation).1 = 0) := by
  have hax := (serviced_geometry s d h).2
  have hx : (check_key_functions s).block_position.x_axis = (axisOf d).1 := by
    rw [← hax]
  have hy : (check_key_functions s).block_position.y_axis = (axisOf d).2.1 := by
    rw [← hax]
  have hz : (check_key_functions s).block_position.z_axis = (axisOf d).2.2 := by
    rw [← hax]
  rw [hx, hy, hz]
  cases d <;> simp [axisOf, cellDelta] <;> split_ifs <;> simp

/-- Instance of `rotation_axis`: Up serviced in the initial position stores the
axis `(-1, 0, 0)`. -/
theorem rotation_axis_witness :
    ((check_key_functions (press .Up initialiseArena)).block_position.x_axis,
      (check_key_functions (press .Up initialiseArena)).block_position.y_axis,
      (check_key_functions (press .Up initialiseArena)).block_position.z_axis) = (-1, 0, 0) :=
  (rotation_axis (press .Up initialiseArena) .Up (by decide)).1

/-! ## The input latch -/

/-- C10: input latch events.  A key-release event, for any key, returns the
state unchanged; a key-press event for a direction whose flag is already `1`
returns the state unchanged; a key-press event for Up, Left, Down or Right
returns the state with that flag set to `1` and every other field as it
was. -/
theorem input_latch (s : State) (key sc mods : Int) :
    keyboard s key sc GLFW_RELEASE mods = s ∧
    (∀ d, intent d s = 1 → keyboard s (keyOf d) sc GLFW_PRESS mods = s) ∧
    keyboard s GLFW_KEY_UP sc GLFW_PRESS mods = { s with up_press := 1 } ∧
    keyboard s GLFW_KEY_LEFT sc GLFW_PRESS mods = { s with left_press := 1 } ∧
    keyboard s GLFW_KEY_DOWN sc GLFW_PRESS mods = { s with down_press := 1 } ∧
    keyboard s GLFW_KEY_RIGHT sc GLFW_PRESS mods = { s with right_press := 1 } := by
  refine ⟨?_, ?_, rfl, rfl, rfl, rfl⟩
  · unfold keyboard
    rw [if_pos rfl]
    split_ifs <;> rfl
  · intro d hd
    rw [keyboard_press]
    cases d <;> simp only [intent] at hd <;> simp only [setIntent, ← hd]

/-- Instance of `input_latch`: pressing Left again while a Left roll is under
way (ten calls after the first press) leaves the state unchanged. -/
theorem input_latch_witness :
    keyboard (check_key_functions^[10] (press .Left initialiseArena))
      GLFW_KEY_LEFT 0 GLFW_PRESS 0 = check_key_functions^[10] (press .Left initialiseArena) :=
  (input_latch (check_key_functions^[10] (press .Left initialiseArena)) 0 0 0).2.1 .Left
    (by decide)

/-! ## Sequences of completed rolls -/

theorem serviced_press_of_none (s : State) (d : Direction) (h : serviced s = none) :
    serviced (press d s) = some d := by
  unfold serviced at h
  split_ifs at h
  rw [press, keyboard_press]
  unfold serviced
  cases d <;> simp [setIntent, *]

theorem press_block_rotation (s : State) (d : Direction) :
    (press d s).block_rotation = s.block_rotation := by
  cases d <;> rfl

theorem press_block_position (s : State) (d : Direction) :
    (press d s).block_position = s.block_position := by
  cases d <;> rfl

/-- A completed roll from a rest state with no intent pending returns the
committed state, for any fuel of at least 46 calls. -/
theorem completeRoll_rest (s : State) (d : Direction) (fuel : Nat) (hfuel : 46 ≤ fuel)
    (hrest : s.block_rotation = 0) (hnone : serviced s = none) :
    completeRoll d fuel s = some (commit d (press d s)) := by
  unfold completeRoll
  refine rollUntilCleared_serviced d fuel _ (serviced_press_of_none s d hnone) ?_
  rw [press_block_rotation, hrest]
  exact le_trans (callsToCommit_rest_le d) hfuel

theorem serviced_commit_press (s : State) (d : Direction) (hnone : serviced s = none) :
    serviced (commit d (press d s)) = none := by
  unfold serviced at hnone
  split_ifs at hnone
  rw [press, keyboard_press]
  unfold serviced
  cases d <;> simp [commit, setIntent, *]

/-- C11 (as stated, refuted): after the rolls Down, Down, Up from the initial
state the block rests LyingAlongZ at `(5, 4)`, not at `(5, 3)`. -/
theorem down_down_up_up_counterexample :
    ∃ t1 t2 t3,
      completeRoll .Down 46 initialiseArena = some t1 ∧
      completeRoll .Down 46 t1 = some t2 ∧
      completeRoll .Up 46 t2 = some t3 ∧
      restsAt t3 2 5 4 ∧ ¬ restsAt t3 2 5 3 :=
  ⟨_, _, _, completeRoll_rest _ .Down 46 (le_refl 46) rfl rfl,
    completeRoll_rest _ .Down 46 (le_refl 46) rfl rfl,
    completeRoll_rest _ .Up 46 (le_refl 46) rfl rfl, by decide, by decide⟩

/-- C11 (amended): from the initial state (Standing at `(5, 5)`) the four
completed rolls Down, Down, Up, Up pass through LyingAlongZ at `(5, 4)`, then
Standing at `(5, 2)`, then LyingAlongZ at `(5, 4)`, and end Standing at
`(5, 5)`. -/
theorem down_down_up_up :
    restsAt initialiseArena 1 5 5 ∧
    ∃ t1 t2 t3 t4,
      completeRoll .Down 46 initialiseArena = some t1 ∧ restsAt t1 2 5 4 ∧
      completeRoll .Down 46 t1 = some t2 ∧ restsAt t2 1 5 2 ∧
      completeRoll .Up 46 t2 = some t3 ∧ restsAt t3 2 5 4 ∧
      completeRoll .Up 46 t3 = some t4 ∧ restsAt t4 1 5 5 :=
  ⟨by decide, _, _, _, _,
    completeRoll_rest _ .Down 46 (le_refl 46) rfl rfl, by decide,
    completeRoll_rest _ .Down 46 (le_refl 46) rfl rfl, by decide,
    completeRoll_rest _ .Up 46 (le_refl 46) rfl rfl, by decide,
    completeRoll_rest _ .Up 46 (le_refl 46) rfl rfl, by decide⟩

/-- C12 (as stated, refuted): from Standing at `(5, 5)` a completed Left roll
followed by a completed Right roll ends Standing at `(5, 5)`, not at
`(4, 5)`. -/
theorem left_then_right_counterexample :
    ∃ t1 t2,
      completeRoll .Left 46 initialiseArena = some t1 ∧
      completeRoll .Right 46 t1 = some t2 ∧
      restsAt t2 1 5 5 ∧ ¬ restsAt t2 1 4 5 :=
  ⟨_, _, completeRoll_rest _ .Left 46 (le_refl 46) rfl rfl,
    completeRoll_rest _ .Right 46 (le_refl 46) rfl rfl, by decide, by decide⟩

/-- C12 (amended): from Standing at `(5, 5)` a completed Left roll yields
LyingAlongX at `(3, 5)`, and a following completed Right roll yields Standing
at `(5, 5)`: the net displacement is `0`, a round trip to the original cell. -/
theorem left_then_right :
    restsAt initialiseArena 1 5 5 ∧
    ∃ t1 t2,
      completeRoll .Left 46 initialiseArena = some t1 ∧ restsAt t1 0 3 5 ∧
      completeRoll .Right 46 t1 = some t2 ∧ restsAt t2 1 5 5 ∧
      t2.block_position.x1 - initialiseArena.block_position.x1 = 0 :=
  ⟨by decide, _, _, completeRoll_rest _ .Left 46 (le_refl 46) rfl rfl, by decide,
    completeRoll_rest _ .Right 46 (le_refl 46) rfl rfl, by decide, by decide⟩

/-- C14: opposite directions undo each other.  From a rest state with no
intent pending and orientation `1`, `0` or `2`, at any integer cell, a completed
roll in direction `d` followed by a completed roll in the opposite direction
returns a rest state with the original orientation and the original cell. -/
theorem opposite_rolls_undo (s : State) (d : Direction) (fuel : Nat) (hfuel : 46 ≤ fuel)
    (hrest : s.block_rotation = 0) (hnone : serviced s = none)
    (ho : s.block_position.orientation = 1 ∨ s.block_position.orientation = 0 ∨
      s.block_position.orientation = 2) :
    ∃ t1 t2,
      completeRoll d fuel s = some t1 ∧
      completeRoll (opposite d) fuel t1 = some t2 ∧
      restsAt t2 s.block_position.orientation s.block_position.x1 s.block_position.y1 := by
  have h1 := completeRoll_rest s d fuel hfuel hrest hnone
  have hn1 := serviced_commit_press s d hnone
  have hr1 : (commit d (press d s)).block_rotation = 0 := (commit_fields _ d).1
  have h2 := completeRoll_rest _ (opposite d) fuel hfuel hr1 hn1
  refine ⟨_, _, h1, h2, ?_⟩
  obtain ⟨c1, c2, c3, c4⟩ := commit_fields (press (opposite d) (commit d (press d s))) (opposite d)
  obtain ⟨e1, e2, e3, e4⟩ := commit_fields (press d s) d
  rw [press_block_position] at c2 c3 c4 e2 e3 e4
  refine ⟨c1, ?_, ?_, ?_⟩
  · rw [c2, e2]
    cases d <;> rcases ho with ho | ho | ho <;> rw [ho] <;> decide
  · rw [c3, e2, e3]
    cases d <;> rcases ho with ho | ho | ho <;> rw [ho] <;>
      simp [opposite, targetOrientation, cellDelta]
  · rw [c4, e2, e4]
    cases d <;> rcases ho with ho | ho | ho <;> rw [ho] <;>
      simp [opposite, targetOrientation, cellDelta]

/-- Instance of `opposite_rolls_undo`: from LyingAlongX at `(3, 7)`, Up and
then Down return to LyingAlongX at `(3, 7)`. -/
theorem opposite_rolls_undo_witness :
    ∃ t1 t2,
      completeRoll .Up 46 (restState 0 3 7) = some t1 ∧
      completeRoll .Down 46 t1 = some t2 ∧
      restsAt t2 0 3 7 :=
  opposite_rolls_undo (restState 0 3 7) .Up 46 (le_refl 46) rfl rfl (Or.inr (Or.inl rfl))

/-! ## Continuity of the animation at the commit -/

theorem rest_model (st : State) (v : Vec3) :
    draw_block_model 1 0 st v =
      glm_translate (-7.5 + (st.block_position.x1 : ℚ), 0.2, 5 - (st.block_position.y1 : ℚ))
        v := by
  simp only [draw_block_model, glm_translate, glm_rotate]
  refine Prod.ext ?_ (Prod.ext ?_ ?_) <;> simp

theorem quarter_model (s : State) (d : Direction) (k : Nat) (v : Vec3) :
    draw_block_model 0 1 (advanceBy d s k) v =
      glm_translate
        (-7.5 + ((s.block_position.x1 + (cellDelta d s.block_position.orientation).1 : Int) : ℚ),
          0.2,
          5 - ((s.block_position.y1 + (cellDelta d s.block_position.orientation).2 : Int) : ℚ))
        (settle d s.block_position.orientation v) := by
  simp only [draw_block_model, advanceBy, storeGeometry, settle, glm_translate]
  refine Prod.ext ?_ (Prod.ext ?_ ?_) <;> simp <;> ring

theorem mem_iff_of_subsets (A B : List Vec3) (h1 : ∀ p ∈ A, p ∈ B) (h2 : ∀ p ∈ B, p ∈ A) :
    ∀ p, p ∈ A ↔ p ∈ B :=
  fun p => ⟨h1 p, h2 p⟩

/-- The quarter turn takes the vertices of the mesh of orientation `o` onto
the vertices of the mesh of the committed orientation, placed at the committed
cell: all twelve branches. -/
theorem settle_mesh (d : Direction) (o : Int) (ho : o = 1 ∨ o = 0 ∨ o = 2) :
    ∀ p, p ∈ (meshOf o).map (settle d o) ↔ p ∈ meshOf (targetOrientation d o) := by
  apply mem_iff_of_subsets
  · cases d <;> rcases ho with rfl | rfl | rfl <;> decide!
  · cases d <;> rcases ho with rfl | rfl | rfl <;> decide!

theorem mem_map_of_mem_iff (g : Vec3 → Vec3) (A B : List Vec3)
    (h : ∀ w, w ∈ A ↔ w ∈ B) : ∀ p, p ∈ A.map g ↔ p ∈ B.map g := by
  intro p
  simp only [List.mem_map]
  constructor
  · rintro ⟨w, hw, rfl⟩
    exact ⟨w, (h w).1 hw, rfl⟩
  · rintro ⟨w, hw, rfl⟩
    exact ⟨w, (h w).2 hw, rfl⟩

theorem drawn_mesh_eq (st : State) : drawn_mesh st = meshOf st.block_position.orientation := rfl

theorem draw_block_advanceBy (s : State) (d : Direction) (k : Nat) :
    draw_block 0 1 (advanceBy d s k) =
      ((meshOf s.block_position.orientation).map (settle d s.block_position.orientation)).map
        (glm_translate
          (-7.5 + ((s.block_position.x1 + (cellDelta d s.block_position.orientation).1 : Int) : ℚ),
            0.2,
            5 - ((s.block_position.y1 + (cellDelta d s.block_position.orientation).2 : Int) : ℚ))) := by
  have hm : drawn_mesh (advanceBy d s k) = meshOf s.block_position.orientation := rfl
  rw [draw_block, hm, List.map_map]
  refine List.map_congr_left (fun v _ => ?_)
  rw [quarter_model]
  rfl

theorem draw_block_rest (st : State) :
    draw_block 1 0 st =
      (drawn_mesh st).map
        (glm_translate
          (-7.5 + (st.block_position.x1 : ℚ), 0.2, 5 - (st.block_position.y1 : ℚ))) := by
  rw [draw_block]
  exact List.map_congr_left (fun v _ => rest_model st v)

theorem mesh_boxes :
    (∀ p, p ∈ block_vertical ↔ p ∈ boxCorners (1, 2, 1)) ∧
    (∀ p, p ∈ block_horizontal1 ↔ p ∈ boxCorners (2, 1, 1)) ∧
    (∀ p, p ∈ block_horizontal2 ↔ p ∈ boxCorners (1, 1, 2)) :=
  ⟨mem_iff_of_subsets _ _ (by decide!) (by decide!),
    mem_iff_of_subsets _ _ (by decide!) (by decide!),
    mem_iff_of_subsets _ _ (by decide!) (by decide!)⟩

/-- C13: continuity of the animation at the commit.  Let direction `d` be
serviced from orientation `1`, `0` or `2` at any cell, and take any state of the
roll before its commit (after call `k`, with `1 ≤ k` and `k` less than the
number of the committing call).  With the quarter turn taken exactly (cosine
`0`, sine `1`), the vertices `draw_block` places for that state, using the
stored axis and pivot offset, are exactly the vertices of the mesh of the
committed orientation under the translation
`(-7.5 + x1, 0.2, 5 - y1)` of the committed cell, which is what `draw_block`
places for the committed state at rest (cosine `1`, sine `0`).  The vertices
of the three meshes are the corners of the boxes `[0,1] x [0,2] x [0,1]`,
`[0,2] x [0,1] x [0,1]` and `[0,1] x [0,1] x [0,2]`. -/
theorem animation_continuity (s : State) (d : Direction) (k : Nat)
    (hs : serviced s = some d)
    (ho : s.block_position.orientation = 1 ∨ s.block_position.orientation = 0 ∨
      s.block_position.orientation = 2)
    (hk1 : 1 ≤ k) (hk2 : k < callsToCommit d s.block_rotation) :
    (∀ p, p ∈ draw_block 0 1 (check_key_functions^[k] s) ↔
      p ∈ (drawn_mesh (check_key_functions^[callsToCommit d s.block_rotation] s)).map
        (glm_translate
          (-7.5 + ((check_key_functions^[callsToCommit d s.block_rotation] s).block_position.x1 : ℚ),
            0.2,
            5 - ((check_key_functions^[callsToCommit d s.block_rotation] s).block_position.y1 : ℚ)))) ∧
    draw_block 1 0 (check_key_functions^[callsToCommit d s.block_rotation] s) =
      (drawn_mesh (check_key_functions^[callsToCommit d s.block_rotation] s)).map
        (glm_translate
          (-7.5 + ((check_key_functions^[callsToCommit d s.block_rotation] s).block_position.x1 : ℚ),
            0.2,
            5 - ((check_key_functions^[callsToCommit d s.block_rotation] s).block_position.y1 : ℚ))) ∧
    (check_key_functions^[callsToCommit d s.block_rotation] s).block_position.orientation
      = targetOrientation d s.block_position.orientation ∧
    (∀ p, p ∈ block_vertical ↔ p ∈ boxCorners (1, 2, 1)) ∧
    (∀ p, p ∈ block_horizontal1 ↔ p ∈ boxCorners (2, 1, 1)) ∧
    (∀ p, p ∈ block_horizontal2 ↔ p ∈ boxCorners (1, 1, 2)) := by
  obtain ⟨m, hm⟩ : ∃ m, callsToCommit d s.block_rotation = m + 1 :=
    ⟨callsToCommit d s.block_rotation - 1, by omega⟩
  obtain ⟨h1, h2⟩ := roll_trace d m s hs hm
  obtain ⟨_, c2, c3, c4⟩ := commit_fields s d
  refine ⟨?_, draw_block_rest _, ?_, mesh_boxes⟩
  · rw [hm, h2, h1 k hk1 (by omega), draw_block_advanceBy, drawn_mesh_eq, c2, c3, c4]
    exact mem_map_of_mem_iff _ _ _ (settle_mesh d _ ho)
  · rw [hm, h2, c2]

/-- Instance of `animation_continuity`: the Up roll from the initial position,
drawn after its first call with the quarter turn, coincides with the committed
LyingAlongZ block drawn at rest after call 45. -/
theorem animation_continuity_witness :
    (draw_block 0 1 (check_key_functions^[1] (press .Up initialiseArena))).toFinset =
      (draw_block 1 0 (check_key_functions^[45] (press .Up initialiseArena))).toFinset := by
  have h := animation_continuity (press .Up initialiseArena) .Up 1 (by decide)
    (Or.inl (by decide)) (le_refl 1) (by decide)
  have e : callsToCommit .Up (press .Up initialiseArena).block_rotation = 45 := by decide
  rw [e] at h
  ext p
  rw [List.mem_toFinset, List.mem_toFinset, h.2.1]
  exact h.1 p

end Bloxorz
